import Mathlib

/-!
Shallow embedding of the crossword CSP solver in src/crossword/generate.py
(class CrosswordCreator), together with the data model it consumes.
The class Crossword and class Variable live in crossword.py, which is not
under src/; they are modelled from the specification (spec.md sections 3
and 6).  Python strings are modelled as lists of characters; Python dicts
keyed by variables are modelled as association lists in insertion order;
the character access w[i] is modelled totally as List.getD with a blank
default (the program only indexes in bounds after node consistency).
-/

/-- Modelled from the spec: class Variable of crossword.py (not under src/).
A crossword slot: row and column of its first cell, orientation
(down = true means DOWN, false means ACROSS), and length.  Two variables
are equal iff all four attributes match (spec section 3). -/
structure Variable where
  i : Nat
  j : Nat
  down : Bool
  length : Nat
deriving DecidableEq

/-- A vocabulary word, modelled as its list of characters. -/
abbrev Word : Type := List Char

/-- Modelled from the spec: class Crossword of crossword.py (not under src/).
The puzzle structure: the set of slot variables (modelled with a fixed
iteration order), the vocabulary (a set per spec section 4.1, so duplicate
free in intended use), and the precomputed overlap map, which for an
ordered pair of distinct crossing variables gives the pair of character
offsets that must agree, and none for a non crossing pair (spec section 3). -/
structure Crossword where
  vars : List Variable
  words : List Word
  overlaps : Variable → Variable → Option (Nat × Nat)

/-- Modelled from the spec: the key list of the Python dict
crossword.overlaps, which holds an entry for every ordered pair of
distinct variables (generate.py reads it with `for v1, v2 in
self.crossword.overlaps` and `list(self.crossword.overlaps.keys())`). -/
def overlapKeys (cw : Crossword) : List (Variable × Variable) :=
  cw.vars.flatMap (fun v1 =>
    (cw.vars.filter (fun v2 => if v2 = v1 then false else true)).map (fun v2 => (v1, v2)))

/-- Modelled from the spec: Crossword.neighbors(var) of crossword.py — the
variables that actually overlap var (spec section 4.4, glossary). -/
def neighbors (cw : Crossword) (v : Variable) : List Variable :=
  cw.vars.filter (fun u => if u = v then false else (cw.overlaps v u).isSome)

/-- The domain store self.domains: a Python dict from variable to its
current candidate word list, modelled as an association list. -/
abbrev Domains : Type := List (Variable × List Word)

/-- Reading self.domains[v].  The Python dict lookup raises on a missing
key; every lookup the solver performs hits a key present since __init__,
so the [] default is never observable in the program. -/
def lookupD : Domains → Variable → List Word
  | [], _ => []
  | p :: rest, v => if p.1 = v then p.2 else lookupD rest v

/-- Writing self.domains[v] = ws for a key already present (the solver
only ever rebinds existing keys; dict insertion order is preserved). -/
def updateD (domains : Domains) (v : Variable) (ws : List Word) : Domains :=
  domains.map (fun p => if p.1 = v then (v, ws) else p)

/-- A partial assignment: a Python dict from variable to word, modelled as
an association list in insertion order. -/
abbrev Assignment : Type := List (Variable × Word)

/-- Membership and lookup in an assignment dict. -/
def lookupA : Assignment → Variable → Option Word
  | [], _ => none
  | p :: rest, v => if p.1 = v then some p.2 else lookupA rest v

/-- assignment[v] = w: rebind v if present (keeping its position, as a
Python dict does) and append otherwise. -/
def insertA (assignment : Assignment) (v : Variable) (w : Word) : Assignment :=
  if (lookupA assignment v).isSome then
    assignment.map (fun p => if p.1 = v then (v, w) else p)
  else
    assignment ++ [(v, w)]

/-- CrosswordCreator.__init__ (generate.py lines 10 to 18): one domain per
variable, seeded with every vocabulary word. -/
def initialDomains (cw : Crossword) : Domains :=
  cw.vars.map (fun v => (v, cw.words))

/-- CrosswordCreator.enforce_node_consistency (generate.py lines 98 to
109): for every variable keep exactly the words whose length equals the
length of the variable. -/
def enforce_node_consistency (domains : Domains) : Domains :=
  domains.map (fun p => (p.1, p.2.filter (fun w => w.length == p.1.length)))

/-- CrosswordCreator.revise (generate.py lines 111 to 146).  With no
overlap (the Python test `if not self.crossword.overlaps[(x, y)]` is true
exactly for None, since any offset pair is a truthy tuple) nothing is
touched and False is returned.  Otherwise the domain of x is replaced by
its words that have a supporting word in the domain of y at the overlap
offsets.  Note the returned flag: the source initialises revisionMade to
True and sets it to False exactly when a word of x lacks support, so the
flag comes out True precisely when NO word was removed — the opposite of
what the docstring of revise announces. -/
def revise (cw : Crossword) (domains : Domains) (x y : Variable) : Bool × Domains :=
  match cw.overlaps x y with
  | none => (false, domains)
  | some (oi, oj) =>
    ((lookupD domains x).all
       (fun xw => (lookupD domains y).any (fun yw => xw.getD oi ' ' == yw.getD oj ' ')),
     updateD domains x
       ((lookupD domains x).filter
         (fun xw => (lookupD domains y).any (fun yw => xw.getD oi ' ' == yw.getD oj ' '))))

/-- The while loop of CrosswordCreator.ac3 (generate.py lines 160 to 177),
fuel indexed: none means the fuel ran out before the loop finished.  The
queue is FIFO (`arcs.pop(0)` and `arcs.append`).  Only when revise
reports True (which, per the inverted flag, means nothing was removed)
does the loop test the domain of x for emptiness and re-enqueue the arcs
(v2, x) for every overlap key (v1, v2) with v1 = x and v2 different
from y. -/
def ac3Loop (cw : Crossword) : Nat → Domains → List (Variable × Variable) → Option (Bool × Domains)
  | _, domains, [] => some (true, domains)
  | 0, _, _ :: _ => none
  | fuel + 1, domains, (x, y) :: rest =>
    let r := revise cw domains x y
    if r.1 then
      if lookupD r.2 x = [] then some (false, r.2)
      else
        ac3Loop cw fuel r.2
          (rest ++ (overlapKeys cw).filterMap
            (fun p => if p.1 = x ∧ p.2 ≠ y then some (p.2, x) else none))
    else
      ac3Loop cw fuel r.2 rest

/-- CrosswordCreator.ac3 (generate.py lines 148 to 177).  The Python test
`if not arcs` holds both for None and for an explicitly supplied empty
list, so both are replaced by the full key list of the overlap dict. -/
def ac3 (cw : Crossword) (fuel : Nat) (domains : Domains)
    (arcs : Option (List (Variable × Variable))) : Option (Bool × Domains) :=
  match arcs with
  | none => ac3Loop cw fuel domains (overlapKeys cw)
  | some [] => ac3Loop cw fuel domains (overlapKeys cw)
  | some l => ac3Loop cw fuel domains l

/-- CrosswordCreator.assignment_complete (generate.py lines 179 to 188):
every variable must be bound, and bound to a truthy (non empty) word. -/
def assignment_complete (cw : Crossword) (assignment : Assignment) : Bool :=
  cw.vars.all (fun v =>
    match lookupA assignment v with
    | some w => !w.isEmpty
    | none => false)

/-- The first loop of CrosswordCreator.consistent: each word must differ
from all words seen before it. -/
def distinctWords : List Word → Bool
  | [] => true
  | w :: ws => !(ws.contains w) && distinctWords ws

/-- CrosswordCreator.consistent (generate.py lines 190 to 222): all bound
words pairwise distinct and of the correct length.  The conflict checking
loop at lines 208 to 221 is a no-op in the source: its condition
`if [overlap != None]` tests a one element Python list, which is always
truthy, so the taken branch merely rebinds a local to an unrelated
imported function and the branch holding the character comparison at the
overlap offsets is unreachable.  The crossword argument is therefore
never really consulted. -/
def consistent (cw : Crossword) (assignment : Assignment) : Bool :=
  distinctWords (assignment.map Prod.snd) &&
  assignment.all (fun p => p.1.length == p.2.length)

/-- The elimination count of CrosswordCreator.order_domain_values
(generate.py lines 238 to 250) for one candidate word w of var: over every
unassigned neighbor of var and every word in the domain of that neighbor,
count the conflicts at the shared overlap offsets.  The none branch is
unreachable because a neighbor by definition has an overlap with var. -/
def eliminations (cw : Crossword) (domains : Domains) (assignment : Assignment)
    (var : Variable) (w : Word) : Nat :=
  ((neighbors cw var).filter (fun n => (lookupA assignment n).isNone)).foldl
    (fun acc n =>
      match cw.overlaps var n with
      | some (oi, oj) =>
          acc + (lookupD domains n).countP
            (fun wn => !(w.getD oi ' ' == wn.getD oj ' '))
      | none => acc)
    0

/-- The key list of the Python dict comprehension
`{word: 0 for word in self.domains[var]}` (generate.py line 232): first
occurrences, in domain order. -/
def pyDedup (l : List Word) : List Word :=
  l.foldl (fun acc w => if w ∈ acc then acc else acc ++ [w]) []

/-- CrosswordCreator.order_domain_values (generate.py lines 224 to 254):
the dict keys (the words of the domain of var, duplicates collapsed),
sorted ascending and stably by their elimination count, as Python sorted
does.  List.insertionSort is stable for a total preorder, hence computes
the same list Python sorted returns.  For the duplicate free domains the
program maintains (the vocabulary is a set), each dict key is visited
exactly once by the counting loop, so its final dict value is the
eliminations count of the key. -/
def order_domain_values (cw : Crossword) (domains : Domains) (var : Variable)
    (assignment : Assignment) : List Word :=
  List.insertionSort
    (fun w1 w2 =>
      eliminations cw domains assignment var w1 ≤ eliminations cw domains assignment var w2)
    (pyDedup (lookupD domains var))

/-- CrosswordCreator.select_unassigned_variable (generate.py lines 256 to
278): sort the unassigned variables ascending and stably by domain size;
if there is a single one, or the two smallest domain sizes differ, return
the first.  Otherwise sort ALL the unassigned variables descending and
stably by neighbor count and return the first of that list — the source
does not restrict this second sort to the variables tied for the minimum.
Python set iteration order is unspecified; it is modelled as the fixed
order of cw.vars.  On an input with no unassigned variable the
source raises IndexError; that case is modelled as none (backtrack only
calls this when the assignment is incomplete). -/
def select_unassigned_variable (cw : Crossword) (domains : Domains)
    (assignment : Assignment) : Option Variable :=
  let unassigned := cw.vars.filter (fun v => (lookupA assignment v).isNone)
  let bySize := List.insertionSort
    (fun v1 v2 => (lookupD domains v1).length ≤ (lookupD domains v2).length) unassigned
  match bySize with
  | [] => none
  | [v] => some v
  | v1 :: v2 :: _ =>
    if (lookupD domains v1).length ≠ (lookupD domains v2).length then some v1
    else
      (List.insertionSort
        (fun u1 u2 => (neighbors cw u2).length ≤ (neighbors cw u1).length) unassigned).head?

/-- The value loop of CrosswordCreator.backtrack (generate.py lines 293 to
301): for each candidate word in order, extend the assignment (the source
extends a deep copy for the consistency test, then performs the same
extension on the shared dict before recursing, and pops the binding again
on failure, restoring the entry state — functionally: recurse on the
extended assignment and continue with the original one on failure). -/
def tryWords (cw : Crossword) (recur : Assignment → Option Assignment)
    (assignment : Assignment) (var : Variable) : List Word → Option Assignment
  | [] => none
  | w :: ws =>
    if consistent cw (insertA assignment var w) then
      match recur (insertA assignment var w) with
      | some result => some result
      | none => tryWords cw recur assignment var ws
    else
      tryWords cw recur assignment var ws

/-- CrosswordCreator.backtrack (generate.py lines 281 to 302), fuel
indexed (the recursion depth of any run is bounded by the number of
variables plus one, so ample fuel is observationally the source).  none
means failure, exactly the None of the source, except when the fuel runs
out first. -/
def backtrack (cw : Crossword) (domains : Domains) : Nat → Assignment → Option Assignment
  | 0, _ => none
  | fuel + 1, assignment =>
    if assignment_complete cw assignment then some assignment
    else
      match select_unassigned_variable cw domains assignment with
      | none => none
      | some var =>
          tryWords cw (backtrack cw domains fuel) assignment var
            (order_domain_values cw domains var assignment)

/-- CrosswordCreator.solve (generate.py lines 90 to 96): node consistency,
then ac3 — whose Boolean result the source DISCARDS (line 95 calls
self.ac3() as a statement) — then backtracking from the empty assignment.
The none on exhausted ac3 fuel is a model artifact; concrete runs below
are given ample fuel. -/
def solve (cw : Crossword) (fuel : Nat) : Option Assignment :=
  match ac3 cw fuel (enforce_node_consistency (initialDomains cw)) none with
  | none => none
  | some r => backtrack cw r.2 fuel []

/-!
Concrete puzzle instances used to settle the claims.  All of them are
well formed inputs: symmetric overlap maps over distinct variables,
duplicate free vocabularies, offsets in range of the slot lengths.
-/

/-- A horizontal slot of length 2 starting at cell (0, 0). -/
def vAcross : Variable := ⟨0, 0, false, 2⟩

/-- A vertical slot of length 2 starting at cell (0, 0). -/
def vDown : Variable := ⟨0, 0, true, 2⟩

/-- Two slots of length 2 crossing at their first characters, with the
two word vocabulary ab, cd.  No pair of words agrees at the crossing, so
the puzzle has no valid solution. -/
def cwTwo : Crossword :=
  ⟨[vAcross, vDown], [['a', 'b'], ['c', 'd']],
   fun u v => if (u = vAcross ∧ v = vDown) ∨ (u = vDown ∧ v = vAcross) then some (0, 0) else none⟩

/-- The domain store of cwTwo right after node consistency. -/
def dTwo : Domains := enforce_node_consistency (initialDomains cwTwo)

/-- A horizontal slot of length 2. -/
def vLen2 : Variable := ⟨0, 0, false, 2⟩

/-- A vertical slot of length 3. -/
def vLen3 : Variable := ⟨0, 0, true, 3⟩

/-- A slot of length 2 and a slot of length 3 crossing at their first
characters, with vocabulary ab, cde: after node consistency each domain
is a singleton and the two words disagree at the crossing, so arc
revision empties both domains. -/
def cwMismatch : Crossword :=
  ⟨[vLen2, vLen3], [['a', 'b'], ['c', 'd', 'e']],
   fun u v => if (u = vLen2 ∧ v = vLen3) ∨ (u = vLen3 ∧ v = vLen2) then some (0, 0) else none⟩

/-- The domain store of cwMismatch right after node consistency:
vLen2 holds only ab, vLen3 holds only cde. -/
def dMismatch : Domains := enforce_node_consistency (initialDomains cwMismatch)

/-- First slot of the triangle puzzle. -/
def vA5 : Variable := ⟨0, 0, false, 2⟩

/-- Second slot of the triangle puzzle. -/
def vB5 : Variable := ⟨0, 0, true, 2⟩

/-- Third slot of the triangle puzzle. -/
def vC5 : Variable := ⟨1, 0, false, 2⟩

/-- Three pairwise crossing slots of length 2, all overlapping at offsets
(0, 0), with the single word aa: every revision is support preserving, so
no word is ever removed anywhere. -/
def cwTriangle : Crossword :=
  ⟨[vA5, vB5, vC5], [['a', 'a']], fun u v => if u = v then none else some (0, 0)⟩

/-- The domain store of cwTriangle with every slot holding the word aa
(equal to the store right after node consistency). -/
def dTriangle : Domains := [(vA5, [['a', 'a']]), (vB5, [['a', 'a']]), (vC5, [['a', 'a']])]

/-- First slot of the MRV puzzle, crossing only v6C. -/
def v6A : Variable := ⟨0, 0, false, 2⟩

/-- Second slot of the MRV puzzle, crossing only v6C. -/
def v6B : Variable := ⟨2, 0, false, 2⟩

/-- Third slot of the MRV puzzle, crossing both v6A and v6B, hence of
highest degree. -/
def v6C : Variable := ⟨0, 0, true, 2⟩

/-- Three slots; v6C crosses v6A and v6B (degree 2), while v6A and v6B
each cross only v6C (degree 1). -/
def cwMRV : Crossword :=
  ⟨[v6A, v6B, v6C],
   [['a', 'a'], ['b', 'b'], ['c', 'a'], ['c', 'b'], ['c', 'c'], ['c', 'd'], ['c', 'e']],
   fun u v =>
     if (u = v6A ∧ v = v6C) ∨ (u = v6C ∧ v = v6A) ∨ (u = v6B ∧ v = v6C) ∨ (u = v6C ∧ v = v6B)
     then some (0, 0) else none⟩

/-- A mid search domain store for cwMRV: the domains of v6A and v6B hold
one word each, the domain of v6C holds five. -/
def dMRV : Domains :=
  [(v6A, [['a', 'a']]), (v6B, [['b', 'b']]),
   (v6C, [['c', 'a'], ['c', 'b'], ['c', 'c'], ['c', 'd'], ['c', 'e']])]

/-!
Helper lemmas about the domain store.
-/

/-- Rebinding the key v to a filtered version of its own value is read
back as exactly that filtered value (and a missing key stays missing, in
which case both sides are the empty list). -/
theorem lookupD_updateD_filter (d : Domains) (v : Variable) (f : Word → Bool) :
    lookupD (updateD d v ((lookupD d v).filter f)) v = (lookupD d v).filter f := by
  induction d with
  | nil => rfl
  | cons p rest ih =>
    by_cases h : p.1 = v
    · simp [updateD, lookupD, h]
    · simpa [updateD, lookupD, h] using ih

/-- Rebinding the key x does not change the value read at another key. -/
theorem lookupD_updateD_ne (d : Domains) (x v : Variable) (ws : List Word)
    (h : v ≠ x) : lookupD (updateD d x ws) v = lookupD d v := by
  induction d with
  | nil => rfl
  | cons p rest ih =>
    have hxv : ¬ (x = v) := fun hxv => h hxv.symm
    have ih2 : lookupD (List.map (fun p => if p.1 = x then (x, ws) else p) rest) v
        = lookupD rest v := by simpa [updateD] using ih
    by_cases hp : p.1 = x
    · simp [updateD, lookupD, hp, hxv, ih2]
    · by_cases hv : p.1 = v
      · simp [updateD, lookupD, hp, hv, hxv, h]
      · simp [updateD, lookupD, hp, hv, hxv, h, ih2]

/-- Node consistency reads back as a length filter of the previous value. -/
theorem lookupD_enforce (d : Domains) (v : Variable) :
    lookupD (enforce_node_consistency d) v =
      (lookupD d v).filter (fun w => w.length == v.length) := by
  induction d with
  | nil => rfl
  | cons p rest ih =>
    by_cases h : p.1 = v
    · subst h
      simp [enforce_node_consistency, lookupD]
    · simpa [enforce_node_consistency, lookupD, h] using ih

/-- The fold behind pyDedup leaves a duplicate free list untouched. -/
theorem pyDedup_go (l : List Word) : ∀ acc : List Word, l.Nodup → (∀ w ∈ l, w ∉ acc) →
    List.foldl (fun acc w => if w ∈ acc then acc else acc ++ [w]) acc l = acc ++ l := by
  induction l with
  | nil => intro acc _ _; simp
  | cons w ws ih =>
    intro acc hnd hdisj
    have hnotin : w ∉ acc := hdisj w (List.mem_cons_self _ _)
    have hdisj2 : ∀ u ∈ ws, u ∉ acc ++ [w] := by
      intro u hu hmem
      rcases List.mem_append.mp hmem with h | h
      · exact hdisj u (List.mem_cons_of_mem _ hu) h
      · rw [List.mem_singleton] at h
        exact (List.nodup_cons.mp hnd).1 (h ▸ hu)
    simp only [List.foldl_cons, if_neg hnotin]
    rw [ih (acc ++ [w]) (List.nodup_cons.mp hnd).2 hdisj2, List.append_assoc]
    rfl

/-- pyDedup is the identity on a duplicate free list. -/
theorem pyDedup_eq_self (l : List Word) (h : l.Nodup) : pyDedup l = l := by
  have hgo := pyDedup_go l [] h (fun w _ hw => absurd hw (List.not_mem_nil w))
  simpa [pyDedup] using hgo

/-- Appending one further overlap key to a queue of overlap keys keeps
every queue element an overlap key of the triangle puzzle. -/
theorem validAppend {tl : List (Variable × Variable)} {q : Variable × Variable}
    (htl : ∀ p ∈ tl, p ∈ overlapKeys cwTriangle) (hq : q ∈ overlapKeys cwTriangle) :
    ∀ p ∈ tl ++ [q], p ∈ overlapKeys cwTriangle := by
  intro p hp
  rcases List.mem_append.mp hp with hmem | hmem
  · exact htl p hmem
  · rw [List.mem_singleton] at hmem
    exact hmem ▸ hq

/-- On the triangle puzzle, from any nonempty queue of overlap arcs the
ac3 loop runs out of fuel, whatever the fuel: every revision keeps every
domain intact (all words are mutually supported) and reports True, which
makes the loop re-enqueue exactly one further arc per arc popped, so the
queue never empties. -/
theorem ac3Loop_triangle_stuck :
    ∀ (fuel : Nat) (arcs : List (Variable × Variable)), arcs ≠ [] →
      (∀ p ∈ arcs, p ∈ overlapKeys cwTriangle) →
      ac3Loop cwTriangle fuel dTriangle arcs = none := by
  intro fuel
  induction fuel with
  | zero =>
    intro arcs hne _
    match arcs, hne with
    | (x, y) :: tl, _ => rfl
  | succ fuel ih =>
    intro arcs hne hval
    match arcs, hne, hval with
    | (a, b) :: tl, _, hval =>
      have hmem : (a, b) ∈ overlapKeys cwTriangle := hval _ (List.mem_cons_self _ _)
      have htl : ∀ p ∈ tl, p ∈ overlapKeys cwTriangle :=
        fun p hp => hval p (List.mem_cons_of_mem _ hp)
      have hkeys : overlapKeys cwTriangle =
          [(vA5, vB5), (vA5, vC5), (vB5, vA5), (vB5, vC5), (vC5, vA5), (vC5, vB5)] := by
        decide
      rw [hkeys] at hmem
      have hmem6 : (a, b) = (vA5, vB5) ∨ (a, b) = (vA5, vC5) ∨ (a, b) = (vB5, vA5) ∨
          (a, b) = (vB5, vC5) ∨ (a, b) = (vC5, vA5) ∨ (a, b) = (vC5, vB5) := by
        simpa using hmem
      rcases hmem6 with hab | hab | hab | hab | hab | hab
      all_goals rw [Prod.mk.injEq] at hab
      all_goals obtain ⟨rfl, rfl⟩ := hab
      · exact ih (tl ++ [(vC5, vA5)]) (by simp) (validAppend htl (by decide))
      · exact ih (tl ++ [(vB5, vA5)]) (by simp) (validAppend htl (by decide))
      · exact ih (tl ++ [(vC5, vB5)]) (by simp) (validAppend htl (by decide))
      · exact ih (tl ++ [(vA5, vB5)]) (by simp) (validAppend htl (by decide))
      · exact ih (tl ++ [(vB5, vC5)]) (by simp) (validAppend htl (by decide))
      · exact ih (tl ++ [(vA5, vC5)]) (by simp) (validAppend htl (by decide))

/-!
The claims.
-/

/-- C1: the claim states that every assignment returned by solve is
complete and valid — in particular that every overlapping pair of
assigned variables agrees at the shared character offsets.  The code
violates this: on cwTwo, solve returns the assignment ab / cd although
the two slots cross at offsets (0, 0) and the characters a and c differ.
The cause is the dead conflict check inside consistent (generate.py
lines 215 to 220). -/
theorem solve_returns_overlap_violating_assignment :
    solve cwTwo 10 = some [(vAcross, ['a', 'b']), (vDown, ['c', 'd'])] ∧
    cwTwo.overlaps vAcross vDown = some (0, 0) ∧
    (['a', 'b'] : Word).getD 0 ' ' ≠ (['c', 'd'] : Word).getD 0 ' ' := by
  decide

/-- C2: the claim states that consistent returns True only if every
overlapping pair of bound variables agrees at the shared offsets.  The
code returns True on an assignment whose two bound words disagree at the
crossing, because the conflict comparison in the source is unreachable
(the condition `if [overlap != None]` is an always truthy one element
list). -/
theorem consistent_true_despite_overlap_conflict :
    consistent cwTwo [(vAcross, ['a', 'b']), (vDown, ['c', 'd'])] = true ∧
    cwTwo.overlaps vAcross vDown = some (0, 0) ∧
    (['a', 'b'] : Word).getD 0 ' ' ≠ (['c', 'd'] : Word).getD 0 ' ' := by
  decide

/-- C3: the claim states that ac3 returns False whenever a domain becomes
empty during propagation.  On cwMismatch the first revision empties the
domain of vLen2 and the second empties the domain of vLen3, yet ac3
returns True: the emptiness test at generate.py line 166 sits under
`if self.revise(x, y)`, and the inverted revise flag is False exactly
when words were removed, so the test is skipped on every arc that
actually pruned. -/
theorem ac3_returns_true_with_emptied_domain :
    ac3 cwMismatch 10 dMismatch none = some (true, [(vLen2, []), (vLen3, [])]) ∧
    lookupD dMismatch vLen2 = [['a', 'b']] ∧
    lookupD dMismatch vLen3 = [['c', 'd', 'e']] := by
  decide

/-- C4: the claim states that revise returns True iff at least one word
was removed from the domain of x.  The code returns the exact opposite:
on cwMismatch the revision removes the only word of vLen2 and returns
False, while on cwTwo a revision that removes nothing returns True. -/
theorem revise_returns_false_after_removal :
    (revise cwMismatch dMismatch vLen2 vLen3).1 = false ∧
    lookupD (revise cwMismatch dMismatch vLen2 vLen3).2 vLen2 = [] ∧
    lookupD dMismatch vLen2 = [['a', 'b']] ∧
    (revise cwTwo dTwo vAcross vDown).1 = true ∧
    lookupD (revise cwTwo dTwo vAcross vDown).2 vAcross = lookupD dTwo vAcross := by
  decide

/-- C5: the claim states that ac3 terminates on every input because each
re-enqueueing revision strictly shrinks a domain.  In the code the
re-enqueueing happens exactly when NOTHING shrank (inverted revise
flag), so on the triangle puzzle — where every word is supported and no
revision ever removes anything — every popped arc re-enqueues one arc
and the queue never empties: for every fuel bound the loop model runs
out of fuel. -/
theorem ac3_never_terminates_on_triangle :
    ∀ fuel : Nat, ac3 cwTriangle fuel dTriangle none = none := by
  intro fuel
  exact ac3Loop_triangle_stuck fuel (overlapKeys cwTriangle) (by decide) (fun p hp => hp)

/-- C6: the claim states that on a tie for minimal domain size the
returned variable is one of the TIED variables with most neighbors.  In
the code the degree tie-break sorts ALL unassigned variables, so on cwMRV
— where v6A and v6B are tied with domain size 1 and v6C has domain size
5 but the highest degree — the highest degree variable v6C is returned
even though its domain size is not minimal. -/
theorem select_unassigned_variable_breaks_mrv :
    select_unassigned_variable cwMRV dMRV [] = some v6C ∧
    (lookupD dMRV v6C).length = 5 ∧
    (lookupD dMRV v6A).length = 1 ∧
    lookupA ([] : Assignment) v6A = none := by
  decide

/-- C7: for every pair of variables with a defined overlap, after
revise(x, y) the domain of x equals exactly the words of its prior
domain that have a supporting word in the domain of y at the overlap
offsets: unsupported words are removed, supported ones are kept. -/
theorem revise_domain_eq_supported_filter (cw : Crossword) (d : Domains)
    (x y : Variable) (oi oj : Nat) (h : cw.overlaps x y = some (oi, oj)) :
    lookupD (revise cw d x y).2 x =
      (lookupD d x).filter
        (fun w => (lookupD d y).any (fun w2 => w.getD oi ' ' == w2.getD oj ' ')) := by
  have h2 : (revise cw d x y).2 =
      updateD d x ((lookupD d x).filter
        (fun w => (lookupD d y).any (fun w2 => w.getD oi ' ' == w2.getD oj ' '))) := by
    simp [revise, h]
  rw [h2]
  exact lookupD_updateD_filter d x _

/-- Witness for C7 at a concrete input: the overlap of cwMismatch is
defined at offsets (0, 0) and the revised domain of vLen2 equals the
support filter of its previous domain. -/
theorem revise_domain_eq_supported_filter_witness :
    cwMismatch.overlaps vLen2 vLen3 = some (0, 0) ∧
    lookupD (revise cwMismatch dMismatch vLen2 vLen3).2 vLen2 =
      (lookupD dMismatch vLen2).filter
        (fun w => (lookupD dMismatch vLen3).any (fun w2 => w.getD 0 ' ' == w2.getD 0 ' ')) :=
  ⟨by decide, revise_domain_eq_supported_filter cwMismatch dMismatch vLen2 vLen3 0 0 (by decide)⟩

/-- C8: order_domain_values returns exactly the words of the current
domain of var (a permutation of it, for the duplicate free domains the
program maintains), ordered ascending by the number of candidate words
they would eliminate from the current domains of the unassigned
neighbors of var. -/
theorem order_domain_values_perm_and_sorted (cw : Crossword) (d : Domains)
    (var : Variable) (assignment : Assignment) (h : (lookupD d var).Nodup) :
    (order_domain_values cw d var assignment).Perm (lookupD d var) ∧
    (order_domain_values cw d var assignment).Pairwise
      (fun w1 w2 =>
        eliminations cw d assignment var w1 ≤ eliminations cw d assignment var w2) := by
  constructor
  · unfold order_domain_values
    rw [pyDedup_eq_self _ h]
    exact List.perm_insertionSort _ _
  · haveI : IsTotal Word (fun w1 w2 =>
        eliminations cw d assignment var w1 ≤ eliminations cw d assignment var w2) :=
      ⟨fun a b => le_total _ _⟩
    haveI : IsTrans Word (fun w1 w2 =>
        eliminations cw d assignment var w1 ≤ eliminations cw d assignment var w2) :=
      ⟨fun a b c hab hbc => le_trans hab hbc⟩
    unfold order_domain_values
    exact List.sorted_insertionSort _ _

/-- Witness for C8 at a concrete input: the post node consistency domain
of vAcross in cwTwo is duplicate free, and the ordered value list is a
sorted permutation of it. -/
theorem order_domain_values_perm_and_sorted_witness :
    (lookupD dTwo vAcross).Nodup ∧
    ((order_domain_values cwTwo dTwo vAcross []).Perm (lookupD dTwo vAcross) ∧
     (order_domain_values cwTwo dTwo vAcross []).Pairwise
       (fun w1 w2 =>
         eliminations cwTwo dTwo [] vAcross w1 ≤ eliminations cwTwo dTwo [] vAcross w2)) :=
  ⟨by decide, order_domain_values_perm_and_sorted cwTwo dTwo vAcross [] (by decide)⟩

/-- C9: the two operations that touch the domain store — node
consistency and each revise call — only shrink domains: after either
one, the domain of every variable is a subset of its previous value. -/
theorem domains_monotone_shrink (cw : Crossword) (d : Domains) (x y v : Variable) :
    lookupD (enforce_node_consistency d) v ⊆ lookupD d v ∧
    lookupD (revise cw d x y).2 v ⊆ lookupD d v := by
  constructor
  · rw [lookupD_enforce]
    exact (List.filter_sublist _).subset
  · cases hov : cw.overlaps x y with
    | none =>
      have h2 : (revise cw d x y).2 = d := by simp [revise, hov]
      rw [h2]
      exact fun a ha => ha
    | some ov =>
      obtain ⟨oi, oj⟩ := ov
      have h2 : (revise cw d x y).2 =
          updateD d x ((lookupD d x).filter
            (fun w => (lookupD d y).any (fun w2 => w.getD oi ' ' == w2.getD oj ' '))) := by
        simp [revise, hov]
      rw [h2]
      by_cases hv : v = x
      · subst hv
        rw [lookupD_updateD_filter]
        exact (List.filter_sublist _).subset
      · rw [lookupD_updateD_ne d x v _ hv]
        exact fun a ha => ha

/-- C10: calling ac3 with an explicitly supplied empty arc list behaves
identically to calling it with no arc list: both replace the argument by
the full key list of the overlap dict and run the same propagation,
returning the same result and the same domains; an empty list is never
treated as immediate success. -/
theorem ac3_empty_arcs_same_as_none :
    ∀ (cw : Crossword) (fuel : Nat) (d : Domains),
      ac3 cw fuel d (some []) = ac3 cw fuel d none ∧
      ac3 cw fuel d (some []) = ac3Loop cw fuel d (overlapKeys cw) :=
  fun _ _ _ => ⟨rfl, rfl⟩
